import Mathlib

/-!
Verification of the cancellation-demo server (`go-context-cancellation`).

The repository's server file `server.go` exposes three handlers sharing one
cancellation discipline:

* `contextError(ctx)` — maps `ctx.Err()` to a gRPC status error
  (`Canceled` / `DeadlineExceeded`) or `nil`;
* `(*citiesServer).List` — the initial pre-loop `select` is commented out;
  the for-loop `for i := 1; i < 50` starts each iteration with
  `err := contextError(ctx); if err != nil { return nil, err }`, then appends
  `City{Id: i, Name: randSeq(10)}` and sleeps 100ms; after the loop one more
  `contextError` check runs just before the return (the README's final
  snippet omits the in-loop check, but `server.go` is the authority);
* `(*citiesServer).ListStream` — checks `ctx.Done()` once before the loop,
  then `for i := 1; i < 50` sleeps 1s and calls `stream.Send`, mapping a send
  failure to `status.Errorf(codes.Unknown, ...)`; no in-loop context check;
* `rest` — an HTTP handler calling `List(r.Context(), ...)`, answering 500
  with no body on any error (from `List` or from `json.Marshal`), else 200
  with the JSON body.

The embedding below models time in pacing units (one unit = one iteration's
sleep of the respective handler), the request context as a monotone
done-from-`doneAt` signal with a fixed reason, item names through an explicit
name function (the source draws them from a package-level random source), and
the stream transport through an explicit per-item send-failure predicate
(`stream.Send` is external transport code). The loop bound `49` of the source
(`for i := 1; i < 50`) is kept as the parameter `n`, instantiated with 49
where a claim is about the concrete program.
-/

/-- A non-nil value of Go's `ctx.Err()`. The `context` package produces
`context.Canceled` and `context.DeadlineExceeded`; the `Context` interface,
however, returns an arbitrary non-nil `error` once done, and `unknown` stands
for any such unrecognized-but-done value. `ctx.Err() == nil` is modelled as
`none : Option GoErr`. -/
inductive GoErr where
  | canceled
  | deadlineExceeded
  | unknown
deriving DecidableEq

/-- gRPC status codes used by `server.go`: `codes.Canceled`,
`codes.DeadlineExceeded`, and `codes.Unknown` (for send failures). -/
inductive Code where
  | Canceled
  | DeadlineExceeded
  | Unknown
deriving DecidableEq

/-- A `status.Error(code, msg)` value as built by the server. -/
structure StatusError where
  code : Code
  msg : String
deriving DecidableEq

/-- A request context: done from pacing-time `doneAt` onward (never before),
with the fixed non-nil `ctx.Err()` value `reason` reported from then on.
`doneAt = none` is a context that never becomes done. This bakes in the
`context.Context` invariant that a context transitions live→done at most
once and its error is fixed and idempotently readable afterwards. -/
structure Ctx where
  doneAt : Option Nat
  reason : GoErr
deriving DecidableEq

/-- `ctx.Err()` observed at pacing-time `t`: `none` while live, the fixed
`reason` once done. -/
def Ctx.err (c : Ctx) (t : Nat) : Option GoErr :=
  match c.doneAt with
  | none => none
  | some d => if d ≤ t then some c.reason else none

/-- Whether `ctx.Done()` is closed at pacing-time `t` (the `select` on
`<-ctx.Done()` fires exactly when `ctx.Err() != nil`). -/
def Ctx.isDone (c : Ctx) (t : Nat) : Bool :=
  (c.err t).isSome

/-- Embeds `contextError` from `server.go`:
`switch ctx.Err() { case context.Canceled: return status.Error(codes.Canceled,
"request is canceled"); case context.DeadlineExceeded: return
status.Error(codes.DeadlineExceeded, "deadline is exceeded"); default: return
nil }`. The `default` branch covers both `nil` and any unrecognized non-nil
error value. -/
def contextError (e : Option GoErr) : Option StatusError :=
  match e with
  | some GoErr.canceled => some ⟨Code.Canceled, "request is canceled"⟩
  | some GoErr.deadlineExceeded => some ⟨Code.DeadlineExceeded, "deadline is exceeded"⟩
  | _ => none

/-- A `cities.City` message: `{id uint32, name string}`. Ids stay far below
`2^32`, so `Nat` is exact. -/
structure City where
  id : Nat
  name : String
deriving DecidableEq

/-- The loop of `List` in `server.go`:
`for i := 1; i < 50; i++ { err := contextError(ctx); if err != nil { return
nil, err }; list = append(list, City{Id: i, Name: randSeq(10)});
time.Sleep(100ms); println(i) }`.
`k` is the number of iterations left (`k = n + 1 - i`), `i` the loop
variable, `t` the elapsed pacing units (each executed iteration sleeps once,
after its check and append, so the check of iteration `i` runs at time
`i - 1`), `acc` the accumulated slice, `checks` the pacing times at which
`contextError` has been consulted so far. Each iteration first classifies the
signal and returns the classified error early when there is one (the
accumulated items are discarded by the caller-visible `nil` slice), else
appends item `i` and sleeps. Returns (check times, elapsed time, early error
or accumulated list). -/
def listLoop (ctx : Ctx) (name : Nat → String) :
    Nat → Nat → Nat → List City → List Nat →
      List Nat × Nat × (StatusError ⊕ List City)
  | 0, _, t, acc, checks => (checks, t, Sum.inr acc)
  | k + 1, i, t, acc, checks =>
    match contextError (ctx.err t) with
    | some e => (checks ++ [t], t, Sum.inl e)
    | none => listLoop ctx name k (i + 1) (t + 1) (acc ++ [⟨i, name i⟩]) (checks ++ [t])

/-- Trace of one run of `List`: the caller-visible result (returned `*Cities`
slice, with `none` the `nil` returned alongside an error, and the returned
error), plus the production work executed (items appended, equal to the
pacing sleeps performed) and the pacing times at which the signal was
classified. -/
structure ListTrace where
  result : Option (List City)
  retErr : Option StatusError
  work : Nat
  checks : List Nat
deriving DecidableEq

/-- Embeds `(*citiesServer).List` of `server.go` (whose initial pre-loop
`select` is commented out): run the checking loop; if it returned early,
propagate `(nil, err)`; otherwise run the one post-loop check
`err := contextError(ctx); if err != nil { return nil, err }` and finally
`return &Cities{City: list}, nil`. The source fixes `n = 49`. -/
def serverListT (ctx : Ctx) (n : Nat) (name : Nat → String) : ListTrace :=
  match listLoop ctx name n 1 0 [] [] with
  | (checks, t, Sum.inl e) => ⟨none, some e, t, checks⟩
  | (checks, t, Sum.inr acc) =>
    match contextError (ctx.err t) with
    | some e => ⟨none, some e, t, checks ++ [t]⟩
    | none => ⟨some acc, none, t, checks ++ [t]⟩

/-- The caller-visible outcome of `List`: the returned `*Cities` slice
(`none` = the `nil` returned alongside an error) and the returned error. -/
def serverList (ctx : Ctx) (n : Nat) (name : Nat → String) :
    Option (List City) × Option StatusError :=
  ((serverListT ctx n name).result, (serverListT ctx n name).retErr)

/-- The error `status.Errorf(codes.Unknown, "cannot send stream response: %v",
err)` built by `ListStream` when `stream.Send` fails. -/
def sendFailError : StatusError :=
  ⟨Code.Unknown, "cannot send stream response"⟩

/-- The loop of `ListStream`:
`for i := 1; i < 50; i++ { time.Sleep(1s); res := ...City{Id: i, ...};
if err := stream.Send(res); err != nil { return status.Errorf(codes.Unknown,
...) } }`.
`k` is the number of iterations left, `i` the loop variable, `sent` the
items delivered so far. `sendFails i` says whether the transport-level
`stream.Send` of item `i` fails (external collaborator). The body contains
no context check. Item `i` is sent at elapsed stream-pacing-time `i` (the
sleep precedes the send). Returns (items sent, terminal error). -/
def streamLoop (name : Nat → String) (sendFails : Nat → Bool) :
    Nat → Nat → List City → List City × Option StatusError
  | 0, _, sent => (sent, none)
  | k + 1, i, sent =>
    if sendFails i then (sent, some sendFailError)
    else streamLoop name sendFails k (i + 1) (sent ++ [⟨i, name i⟩])

/-- Embeds `(*citiesServer).ListStream` of `server.go`:
`select { case <-ctx.Done(): return contextError(ctx); default: }` before the
loop (note: if the context is done with an unrecognized reason this returns
`contextError(ctx) = nil`, i.e. a clean stream end), then the send loop.
Result: (items delivered to the caller, terminal error). The source fixes
`n = 49`. -/
def serverListStream (ctx : Ctx) (n : Nat) (name : Nat → String)
    (sendFails : Nat → Bool) : List City × Option StatusError :=
  if ctx.isDone 0 then ([], contextError (ctx.err 0))
  else streamLoop name sendFails n 1 []

/-- An HTTP response as produced by the `rest` handler: status code, and the
body written on success (`none` = `WriteHeader` only, no structured body). -/
structure HttpResponse where
  statusCode : Nat
  body : Option String
deriving DecidableEq

/-- Embeds the `rest` handler of `server.go`:
`list, err := new(citiesServer).List(r.Context(), ...)`; on `err != nil`
log and `WriteHeader(500)` with no body; then `data, err :=
json.Marshal(list.City)`; on failure log and `WriteHeader(500)` with no
body; else `WriteHeader(200)` and write `data`. `marshal` stands for
`json.Marshal` (external encoder, may fail). -/
def rest (ctx : Ctx) (n : Nat) (name : Nat → String)
    (marshal : List City → Option String) : HttpResponse :=
  match serverList ctx n name with
  | (_, some _) => ⟨500, none⟩
  | (list, none) =>
    match marshal (list.getD []) with
    | none => ⟨500, none⟩
    | some data => ⟨200, some data⟩

/-- Per-item pacing of the patched `List`: `time.Sleep(100 *
time.Millisecond)`. -/
def listPacingMs : Nat := 100

/-- Per-item pacing of `ListStream`: `time.Sleep(1 * time.Second)`. -/
def listStreamPacingMs : Nat := 1000

/-- How many of the `n` stream items reach a client whose context has a
`deadlineMs` deadline: item `i` is sent at elapsed time `i * pacingMs`
(sleep precedes send), and deliveries from the deadline onward no longer
reach the caller. The source's own client run (3s timeout against the 1s
stream pacing) observed exactly items 1 and 2 before the deadline error. -/
def sentBeforeDeadline (pacingMs deadlineMs n : Nat) : Nat :=
  ((List.range n).map (· + 1)).countP (fun i => i * pacingMs < deadlineMs)

/-- The items the loops produce: `k` cities `City{Id: i, Name: name(i)}` for
`i = first, first+1, ...`, in generation order. -/
def citiesFrom (name : Nat → String) : Nat → Nat → List City
  | _, 0 => []
  | first, k + 1 => ⟨first, name first⟩ :: citiesFrom name (first + 1) k

theorem citiesFrom_length (name : Nat → String) (k : Nat) :
    ∀ first : Nat, (citiesFrom name first k).length = k := by
  induction k with
  | zero => intro first; rfl
  | succ k ih => intro first; simp [citiesFrom, ih]

theorem citiesFrom_ids (name : Nat → String) (k : Nat) :
    ∀ first : Nat, (citiesFrom name first k).map City.id = List.range' first k := by
  induction k with
  | zero => intro first; rfl
  | succ k ih => intro first; simp [citiesFrom, List.range'_succ, ih]

theorem listLoop_all_live (ctx : Ctx) (name : Nat → String) (k : Nat) :
    ∀ (i t : Nat) (acc : List City) (checks : List Nat),
      (∀ s, s < t + k → contextError (ctx.err s) = none) →
      listLoop ctx name k i t acc checks =
        (checks ++ List.range' t k, t + k, Sum.inr (acc ++ citiesFrom name i k)) := by
  induction k with
  | zero => intro i t acc checks _; simp [listLoop, citiesFrom]
  | succ k ih =>
    intro i t acc checks h
    rw [listLoop, h t (by omega)]
    show listLoop ctx name k (i + 1) (t + 1) (acc ++ [City.mk i (name i)])
      (checks ++ [t]) = _
    have hrec := ih (i + 1) (t + 1) (acc ++ [City.mk i (name i)]) (checks ++ [t])
      (fun s hs => h s (by omega))
    rw [hrec]
    simp [citiesFrom, List.range'_succ]
    omega

theorem listLoop_aborts (ctx : Ctx) (name : Nat → String) (d : Nat)
    (e : StatusError) (hd : ctx.doneAt = some d)
    (he : contextError (some ctx.reason) = some e) (k : Nat) :
    ∀ (i t : Nat) (acc : List City) (checks : List Nat), t ≤ d → d < t + k →
      listLoop ctx name k i t acc checks =
        (checks ++ List.range' t (d - t + 1), d, Sum.inl e) := by
  induction k with
  | zero => intro i t acc checks h1 h2; omega
  | succ k ih =>
    intro i t acc checks h1 h2
    rw [listLoop]
    by_cases htd : t = d
    · subst htd
      have herr : ctx.err t = some ctx.reason := by
        unfold Ctx.err
        rw [hd]
        simp
      rw [herr, he]
      simp [List.range']
    · have hlt : t < d := lt_of_le_of_ne h1 htd
      have herr : ctx.err t = none := by
        unfold Ctx.err
        rw [hd]
        simp
        omega
      rw [herr]
      show listLoop ctx name k (i + 1) (t + 1) (acc ++ [City.mk i (name i)])
        (checks ++ [t]) = _
      have hrec := ih (i + 1) (t + 1) (acc ++ [City.mk i (name i)]) (checks ++ [t])
        (by omega) (by omega)
      rw [hrec]
      have harith : d - t + 1 = (d - (t + 1) + 1) + 1 := by omega
      rw [harith]
      simp [List.range'_succ]

theorem serverListT_all_live (ctx : Ctx) (n : Nat) (name : Nat → String)
    (h : ∀ s, s ≤ n → contextError (ctx.err s) = none) :
    serverListT ctx n name =
      ⟨some (citiesFrom name 1 n), none, n, List.range n ++ [n]⟩ := by
  unfold serverListT
  rw [listLoop_all_live ctx name n 1 0 [] [] (fun s hs => h s (by omega))]
  simp [h n (le_refl n), List.range_eq_range']

theorem serverListT_aborts_early (ctx : Ctx) (n : Nat) (name : Nat → String)
    (d : Nat) (e : StatusError) (hd : ctx.doneAt = some d)
    (he : contextError (some ctx.reason) = some e) (hdn : d < n) :
    serverListT ctx n name = ⟨none, some e, d, List.range (d + 1)⟩ := by
  unfold serverListT
  rw [listLoop_aborts ctx name d e hd he n 1 0 [] [] (by omega) (by omega)]
  simp [List.range_eq_range']

theorem serverListT_final_check_aborts (ctx : Ctx) (n : Nat)
    (name : Nat → String) (e : StatusError) (hd : ctx.doneAt = some n)
    (he : contextError (some ctx.reason) = some e) :
    serverListT ctx n name = ⟨none, some e, n, List.range n ++ [n]⟩ := by
  unfold serverListT
  have hlive : ∀ s, s < 0 + n → contextError (ctx.err s) = none := by
    intro s hs
    have herr : ctx.err s = none := by
      unfold Ctx.err
      rw [hd]
      simp
      omega
    rw [herr]
    rfl
  rw [listLoop_all_live ctx name n 1 0 [] [] hlive]
  have herrn : ctx.err n = some ctx.reason := by
    unfold Ctx.err
    rw [hd]
    simp
  simp [herrn, he, List.range_eq_range']

theorem streamLoop_all_sends_ok (name : Nat → String) (sendFails : Nat → Bool)
    (hs : ∀ j, sendFails j = false) (k : Nat) :
    ∀ (i : Nat) (sent : List City),
      streamLoop name sendFails k i sent = (sent ++ citiesFrom name i k, none) := by
  induction k with
  | zero => intro i sent; simp [streamLoop, citiesFrom]
  | succ k ih =>
    intro i sent
    rw [streamLoop]
    simp [hs i, citiesFrom, ih]

theorem streamLoop_err_is_send_fail (name : Nat → String) (sendFails : Nat → Bool)
    (k : Nat) :
    ∀ (i : Nat) (sent : List City) (e : StatusError),
      (streamLoop name sendFails k i sent).2 = some e → e = sendFailError := by
  induction k with
  | zero => intro i sent e h; simp [streamLoop] at h
  | succ k ih =>
    intro i sent e h
    rw [streamLoop] at h
    by_cases hf : sendFails i
    · simp [hf] at h
      exact h.symm
    · simp [hf] at h
      exact ih _ _ _ h

/-- Claim C1 (code_bug evidence): the source's `contextError` swallows an
unrecognized-but-done context state. At pacing-time 0 the context
`⟨some 0, GoErr.unknown⟩` already reports done (`ctx.Err()` non-nil), yet
`contextError` falls into its `default: return nil` branch and reports
"no error" — contradicting the required totality of the classifier over
done states. -/
theorem contextError_swallows_unrecognized_done :
    Ctx.isDone ⟨some 0, GoErr.unknown⟩ 0 = true ∧
      contextError (Ctx.err ⟨some 0, GoErr.unknown⟩ 0) = none := by
  constructor
  · rfl
  · rfl

/-- Claim C2 (counterexample): `ListStream` does not check the signal before
each item. The context `⟨some 1, GoErr.deadlineExceeded⟩` is live at the
start check (time 0) and becomes done during the stream (from time 1, i.e.
before 48 of the 49 sends), yet with a functioning transport the loop never
stops: all 49 items are sent and the terminal error is `none`, not the
classified `DeadlineExceededError` the claim requires. -/
theorem stream_mid_cancel_no_stop_cex :
    Ctx.isDone ⟨some 1, GoErr.deadlineExceeded⟩ 0 = false ∧
      Ctx.isDone ⟨some 1, GoErr.deadlineExceeded⟩ 1 = true ∧
      (serverListStream ⟨some 1, GoErr.deadlineExceeded⟩ 49 (fun _ => "")
          (fun _ => false)).2 = none ∧
      (serverListStream ⟨some 1, GoErr.deadlineExceeded⟩ 49 (fun _ => "")
          (fun _ => false)).1.length = 49 := by
  refine ⟨rfl, rfl, rfl, rfl⟩

/-- Claim C2 (amended): `ListStream` checks the signal exactly once, before
the loop: if the context is done at time 0 it returns no items and the
(possibly nil) classified error; otherwise the stream's outcome is
independent of the signal from then on — the loop contains no check — and
the only terminal error the started stream can report is the `Unknown`
transport send error, never a classified cancellation error. -/
theorem stream_checks_once_then_transport_error (ctx ctx' : Ctx) (n : Nat)
    (name : Nat → String) (sendFails : Nat → Bool) :
    (ctx.isDone 0 = true →
      serverListStream ctx n name sendFails = ([], contextError (ctx.err 0))) ∧
    (ctx.isDone 0 = false → ctx'.isDone 0 = false →
      serverListStream ctx n name sendFails = serverListStream ctx' n name sendFails) ∧
    (ctx.isDone 0 = false → ∀ e : StatusError,
      (serverListStream ctx n name sendFails).2 = some e → e.code = Code.Unknown) := by
  refine ⟨fun h => ?_, fun h h' => ?_, fun h e he => ?_⟩
  · simp [serverListStream, h]
  · simp [serverListStream, h, h']
  · rw [serverListStream] at he
    simp [h] at he
    have := streamLoop_err_is_send_fail name sendFails n 1 [] e he
    rw [this]
    rfl

/-- Witness for the amended C2 theorem at a concrete input: a context done
(cancelled) before the stream starts yields no items and the classified
cancellation error. -/
theorem stream_checks_once_then_transport_error_witness :
    serverListStream ⟨some 0, GoErr.canceled⟩ 2 (fun _ => "") (fun _ => false) =
      ([], some ⟨Code.Canceled, "request is canceled"⟩) := by
  have h := (stream_checks_once_then_transport_error ⟨some 0, GoErr.canceled⟩
    ⟨some 0, GoErr.canceled⟩ 2 (fun _ => "") (fun _ => false)).1 rfl
  rw [h]
  rfl

/-- Claim C3 (code_bug evidence): the buffered `List` is not atomic with
respect to every done signal. With the context done since before any work
(`doneAt = 0`) but with an unrecognized reason, every check it performs — the
per-item check before each of the 49 items and the post-loop check — calls
`contextError`, whose default branch returns nil for the unrecognized done
state, so the handler produces all 49 items and returns the complete list
with no error — a complete-but-stale result delivered alongside a signal
that has reported done the whole time. -/
theorem buffered_stale_success_on_unknown_done :
    Ctx.isDone ⟨some 0, GoErr.unknown⟩ 49 = true ∧
      serverList ⟨some 0, GoErr.unknown⟩ 49 (fun _ => "") =
        (some (citiesFrom (fun _ => "") 1 49), none) ∧
      (serverListT ⟨some 0, GoErr.unknown⟩ 49 (fun _ => "")).work = 49 ∧
      (citiesFrom (fun _ => "") 1 49).length = 49 := by
  have hT : serverListT ⟨some 0, GoErr.unknown⟩ 49 (fun _ => "") =
      ⟨some (citiesFrom (fun _ => "") 1 49), none, 49, List.range 49 ++ [49]⟩ := by
    apply serverListT_all_live
    intro s _
    have herr : Ctx.err ⟨some 0, GoErr.unknown⟩ s = some GoErr.unknown := by
      unfold Ctx.err
      simp
    rw [herr]
    rfl
  refine ⟨rfl, ?_, ?_, rfl⟩
  · unfold serverList
    rw [hT]
  · rw [hT]

/-- Claim C4 (confirmed): `List` checks the Cancellation Signal before
consuming each of the `n` items and performs exactly one additional final
check after the loop. On a run where no check classifies an error, the
signal is queried exactly at pacing times `0 .. n-1` — once before each item
`i = 1..n`, at time `i - 1` — plus exactly once more at time `n`, after the
loop and before the return. When the signal is done with a recognized reason
from time `d < n`, the per-item check before item `d + 1` observes it and
aborts (nil slice, classified error, only `d` items' work executed); when it
becomes done exactly at time `n` — the window between the last per-item
check and the return — the single post-loop check still catches it and
prevents the stale complete result. -/
theorem list_checks_before_each_item_and_once_after (ctx : Ctx) (n : Nat)
    (name : Nat → String) :
    ((∀ s, s ≤ n → contextError (ctx.err s) = none) →
      (serverListT ctx n name).checks = List.range n ++ [n]) ∧
    (∀ d e, ctx.doneAt = some d → contextError (some ctx.reason) = some e →
      d < n → serverListT ctx n name = ⟨none, some e, d, List.range (d + 1)⟩) ∧
    (∀ e, ctx.doneAt = some n → contextError (some ctx.reason) = some e →
      serverListT ctx n name = ⟨none, some e, n, List.range n ++ [n]⟩) := by
  refine ⟨fun h => ?_,
    fun d e hd he hdn => serverListT_aborts_early ctx n name d e hd he hdn,
    fun e hd he => serverListT_final_check_aborts ctx n name e hd he⟩
  rw [serverListT_all_live ctx n name h]

/-- Witness for C4 at concrete inputs: with a never-done context and `n = 2`
the signal is queried at times 0 and 1 (before items 1 and 2) and exactly
once more at time 2; with a context cancelled from time 1 the per-item check
before item 2 aborts with one item's work discarded. -/
theorem list_checks_before_each_item_and_once_after_witness :
    (serverListT ⟨none, GoErr.canceled⟩ 2 (fun _ => "")).checks = [0, 1, 2] ∧
      serverListT ⟨some 1, GoErr.canceled⟩ 2 (fun _ => "") =
        ⟨none, some ⟨Code.Canceled, "request is canceled"⟩, 1, [0, 1]⟩ := by
  constructor
  · have h := (list_checks_before_each_item_and_once_after ⟨none, GoErr.canceled⟩ 2
      (fun _ => "")).1 (fun s _ => rfl)
    rw [h]
    rfl
  · exact (list_checks_before_each_item_and_once_after ⟨some 1, GoErr.canceled⟩ 2
      (fun _ => "")).2.1 1 ⟨Code.Canceled, "request is canceled"⟩ rfl rfl (by omega)

/-- Claim C5 (counterexample): for `N = 0` the outcome is not independent of
the signal state, and a check does run before returning empty. With a
context done (cancelled) from time 0: `List`'s post-loop check fires and it
returns `nil` with the classified cancellation error instead of an empty
list with no error; `ListStream`'s pre-loop check fires and it returns the
classified cancellation error as terminal error. -/
theorem n_zero_done_not_success_cex :
    serverList ⟨some 0, GoErr.canceled⟩ 0 (fun _ => "") ≠ (some [], none) ∧
      serverList ⟨some 0, GoErr.canceled⟩ 0 (fun _ => "") =
        (none, some ⟨Code.Canceled, "request is canceled"⟩) ∧
      serverListStream ⟨some 0, GoErr.canceled⟩ 0 (fun _ => "") (fun _ => false) ≠
        ([], none) ∧
      serverListStream ⟨some 0, GoErr.canceled⟩ 0 (fun _ => "") (fun _ => false) =
        ([], some ⟨Code.Canceled, "request is canceled"⟩) := by
  refine ⟨by decide, rfl, by decide, rfl⟩

/-- Claim C5 (amended): for `N = 0` both strategies return an empty sequence
of items immediately and perform zero production work, but a cancellation
check still runs before returning empty: `List`'s per-item checks cover zero
items, leaving exactly its one post-loop check (at time 0), and `ListStream`
performs its pre-loop check. When the classifier maps the signal's state at
time 0 to "no error" (live signal, or done with an unrecognized reason) the
result is empty with no error; when the signal is done with reason cancelled
or deadline-exceeded, the classified error is returned instead. -/
theorem n_zero_still_checked (ctx : Ctx) (name : Nat → String)
    (sendFails : Nat → Bool) :
    (contextError (ctx.err 0) = none →
      serverList ctx 0 name = (some [], none) ∧
      serverListStream ctx 0 name sendFails = ([], none)) ∧
    (∀ e : StatusError, contextError (ctx.err 0) = some e →
      serverList ctx 0 name = (none, some e) ∧
      serverListStream ctx 0 name sendFails = ([], some e)) ∧
    (serverListT ctx 0 name).work = 0 ∧
    (serverListT ctx 0 name).checks = [0] := by
  refine ⟨fun h => ⟨?_, ?_⟩, fun e he => ?_, ?_, ?_⟩
  · unfold serverList serverListT
    simp [listLoop, h]
  · by_cases hd : ctx.isDone 0
    · simp [serverListStream, hd, h]
    · simp [serverListStream, hd, streamLoop]
  · have hd : ctx.isDone 0 = true := by
      unfold Ctx.isDone
      cases h0 : ctx.err 0 with
      | none => rw [h0] at he; exact absurd he (by simp [contextError])
      | some g => simp
    constructor
    · unfold serverList serverListT
      simp [listLoop, he]
    · simp [serverListStream, hd, he]
  · unfold serverListT
    cases h0 : contextError (ctx.err 0) <;> simp [listLoop, h0]
  · unfold serverListT
    cases h0 : contextError (ctx.err 0) <;> simp [listLoop, h0]

/-- Witness for the amended C5 theorem at a concrete input: a live context
with `N = 0` yields an empty list and no error on both paths. -/
theorem n_zero_still_checked_witness :
    serverList ⟨none, GoErr.canceled⟩ 0 (fun _ => "") = (some [], none) ∧
      serverListStream ⟨none, GoErr.canceled⟩ 0 (fun _ => "") (fun _ => false) =
        ([], none) := by
  exact (n_zero_still_checked ⟨none, GoErr.canceled⟩ (fun _ => "") (fun _ => false)).1 rfl

/-- Claim C6 (confirmed): full completion. Given a context that never becomes
done and a transport whose sends all succeed, both `List` and `ListStream`
return all `n` items and no error, and the returned items carry ids
`1..n` in generation order (no reuse, no gaps). -/
theorem full_completion (ctx : Ctx) (n : Nat) (name : Nat → String)
    (sendFails : Nat → Bool) (hlive : ctx.doneAt = none)
    (hsend : ∀ j, sendFails j = false) :
    serverList ctx n name = (some (citiesFrom name 1 n), none) ∧
      serverListStream ctx n name sendFails = (citiesFrom name 1 n, none) ∧
      (citiesFrom name 1 n).map City.id = List.range' 1 n ∧
      (citiesFrom name 1 n).length = n := by
  have herr : ∀ t, ctx.err t = none := by
    intro t
    unfold Ctx.err
    rw [hlive]
  have hT := serverListT_all_live ctx n name (fun s _ => by rw [herr s]; rfl)
  refine ⟨?_, ?_, citiesFrom_ids name n 1, citiesFrom_length name n 1⟩
  · unfold serverList
    rw [hT]
  · have hd : ctx.isDone 0 = false := by
      unfold Ctx.isDone
      rw [herr 0]
      rfl
    rw [serverListStream]
    simp [hd]
    rw [streamLoop_all_sends_ok name sendFails hsend n 1 []]
    rfl

/-- Witness for C6 at a concrete input: with a never-done context, `n = 3`,
and a transport that never fails, both strategies deliver the three items
with ids 1, 2, 3 and no error. -/
theorem full_completion_witness :
    serverList ⟨none, GoErr.canceled⟩ 3 (fun _ => "") =
        (some (citiesFrom (fun _ => "") 1 3), none) ∧
      serverListStream ⟨none, GoErr.canceled⟩ 3 (fun _ => "") (fun _ => false) =
        (citiesFrom (fun _ => "") 1 3, none) ∧
      (citiesFrom (fun _ => "") 1 3).map City.id = [1, 2, 3] := by
  have h := full_completion ⟨none, GoErr.canceled⟩ 3 (fun _ => "") (fun _ => false)
    rfl (fun j => rfl)
  exact ⟨h.1, h.2.1, by rw [h.2.2.1]; rfl⟩

/-- Claim C7 (confirmed): `contextError` is a pure total function realizing
the specified mapping on the three named reasons: `nil → no error`,
`Canceled → status(Canceled, "request is canceled")`,
`DeadlineExceeded → status(DeadlineExceeded, "deadline is exceeded")`. -/
theorem contextError_named_reason_mapping :
    contextError none = none ∧
      contextError (some GoErr.canceled) =
        some ⟨Code.Canceled, "request is canceled"⟩ ∧
      contextError (some GoErr.deadlineExceeded) =
        some ⟨Code.DeadlineExceeded, "deadline is exceeded"⟩ := by
  exact ⟨rfl, rfl, rfl⟩

/-- Claim C8 (counterexample): the claim's premise that both strategies pace
at 100ms/item is false — `ListStream` sleeps `1 * time.Second` per item, so
its pacing is 1000ms — and under the code's actual stream pacing a 3000ms
deadline lets only items 1 and 2 through (as the repository's own client run
shows), not approximately 29 (±1). -/
theorem stream_pacing_cex :
    listStreamPacingMs = 1000 ∧ listStreamPacingMs ≠ 100 ∧
      sentBeforeDeadline listStreamPacingMs 3000 49 = 2 ∧
      ¬ (28 ≤ sentBeforeDeadline listStreamPacingMs 3000 49) := by
  refine ⟨rfl, by decide, by decide, by decide⟩

/-- Claim C8 (amended): with `N = 49` and a 3000ms client deadline, the unary
`List` (pacing 100ms/item) aborts at its per-item check at pacing-time 30
(before item 31), discarding the 30 items already produced, so its caller
receives zero items and the `DeadlineExceededError`; the stream (pacing
1000ms/item) delivers exactly items 1 and 2 before the deadline — the send
of item 3, due at 3000ms, no longer reaches the caller — and the server's
loop ends with the `Unknown` send error (the deadline error itself is raised
client-side). -/
theorem deadline_timing_amended :
    listPacingMs = 100 ∧ listStreamPacingMs = 1000 ∧
      serverList ⟨some (3000 / listPacingMs), GoErr.deadlineExceeded⟩ 49 (fun _ => "") =
        (none, some ⟨Code.DeadlineExceeded, "deadline is exceeded"⟩) ∧
      (serverListT ⟨some (3000 / listPacingMs), GoErr.deadlineExceeded⟩ 49
          (fun _ => "")).work = 30 ∧
      sentBeforeDeadline listStreamPacingMs 3000 49 = 2 ∧
      (serverListStream ⟨none, GoErr.deadlineExceeded⟩ 49 (fun _ => "")
          (fun i => decide (3000 ≤ i * listStreamPacingMs))).1.length = 2 ∧
      (serverListStream ⟨none, GoErr.deadlineExceeded⟩ 49 (fun _ => "")
          (fun i => decide (3000 ≤ i * listStreamPacingMs))).2 = some sendFailError := by
  have hT := serverListT_aborts_early ⟨some (3000 / listPacingMs), GoErr.deadlineExceeded⟩
    49 (fun _ => "") 30 ⟨Code.DeadlineExceeded, "deadline is exceeded"⟩ (by rfl) (by rfl)
    (by omega)
  refine ⟨rfl, rfl, ?_, ?_, by decide, by decide, by decide⟩
  · unfold serverList
    rw [hT]
  · rw [hT]

/-- Claim C9 (confirmed): the `rest` handler answers 200 exactly when the
buffered `List` call returns no error and the JSON encoding succeeds; on 200
the body is exactly the encoder's output for the returned slice; every other
outcome is a 500 with no structured body. -/
theorem rest_status_characterization (ctx : Ctx) (n : Nat) (name : Nat → String)
    (marshal : List City → Option String) :
    ((rest ctx n name marshal).statusCode = 200 ↔
      (serverList ctx n name).2 = none ∧
        (marshal ((serverList ctx n name).1.getD [])).isSome = true) ∧
    ((rest ctx n name marshal).statusCode = 200 →
      (rest ctx n name marshal).body = marshal ((serverList ctx n name).1.getD [])) ∧
    ((rest ctx n name marshal).statusCode ≠ 200 →
      (rest ctx n name marshal).statusCode = 500 ∧
        (rest ctx n name marshal).body = none) := by
  unfold rest
  rcases h : serverList ctx n name with ⟨list, err⟩
  cases err with
  | some e => simp
  | none =>
    cases hm : marshal (list.getD []) with
    | none => simp [hm]
    | some data => simp [hm]

/-- Witness for C9 at a concrete input: a live context and an encoder that
succeeds yield a 200. -/
theorem rest_status_characterization_witness :
    (rest ⟨none, GoErr.canceled⟩ 1 (fun _ => "") (fun _ => some "x")).statusCode =
      200 := by
  exact (rest_status_characterization ⟨none, GoErr.canceled⟩ 1 (fun _ => "")
    (fun _ => some "x")).1.mpr ⟨rfl, rfl⟩
